import Mathlib

/-!
Verification of the hybrid movie-recommendation engine
(`recommendations/algorithms.py`) against its specification.

The Python code is shallowly embedded: database tables become lists of
records, Django querysets become list filters, Python `dict`s become
insertion-ordered association lists, Python's stable `list.sort` becomes a
stable insertion sort, and float arithmetic is modelled exactly (rationals,
with `Real.sqrt` for the `** 0.5` in the cosine-similarity norms).  Reason
strings are modelled by an injective inductive encoding (`Reason`) carrying
the same data the formatted Python strings carry.
-/

namespace MovieRec

/-- Catalog movie row (`movies.models.Movie`), restricted to the fields the
recommendation engine reads. -/
structure Movie where
  id : Nat
  genre_ids : List Nat
  popularity : ℚ
  vote_average : ℚ
  vote_count : Nat
deriving Repr, DecidableEq

/-- User row (`users.models.User`), restricted to the fields the engine
reads.  A `None` value of `preferred_genres` is modelled as `[]`, matching
`user.preferred_genres or []` in the code. -/
structure User where
  id : Nat
  preferred_genres : List String
deriving Repr, DecidableEq

/-- One row of `movies.models.MovieRating`: a (user, movie, rating) edge. -/
structure RatingRow where
  user_id : Nat
  movie_id : Nat
  rating : ℚ
deriving Repr, DecidableEq

/-- One row of `movies.models.UserFavorite`: a (user, movie) edge. -/
structure FavoriteRow where
  user_id : Nat
  movie_id : Nat
deriving Repr, DecidableEq

/-- A snapshot of the relational store as the engine reads it. -/
structure Db where
  movies : List Movie
  users : List User
  ratings : List RatingRow
  favorites : List FavoriteRow
deriving Repr

/-- The human-readable reason attached to a recommendation, encoded
injectively: `collaborative s` stands for the string
"Recommended by users with similar tastes (score: {s:.2f})",
`contentBased gs` for "Similar to your preferred genres: {', '.join(gs)}",
and `popularity` for "Popular movies trending now". -/
inductive Reason where
  | collaborative (predicted : ℝ)
  | contentBased (genres : List String)
  | popularity

/-- One recommendation tuple `(movie, score, reason)`; `σ` is the score
type (`ℚ` for the purely rational strategies, `ℝ` once collaborative
scores enter). -/
structure Entry (σ : Type) where
  movie : Movie
  score : σ
  reason : Reason

/-- `settings.RECOMMENDATION_CONFIG`: the four recognized options.  The
concrete values live in the Django settings file, outside the embedded
sources, so the engine is parametrized by them. -/
structure Config where
  min_rating_count : Nat
  collaborative_weight : ℚ
  content_based_weight : ℚ
  popularity_weight : ℚ

/-! ### Insertion-ordered dictionaries (Python `dict`) -/

/-- Update-or-append on an association list: the exact semantics of a
Python `dict` assignment `d[k] = ...` — an existing binding is updated in
place (keeping its position), a new key is appended at the end. -/
def upsert {α : Type} (k : Nat) (f : α → α) (v : α) : List (Nat × α) → List (Nat × α)
  | [] => [(k, v)]
  | (k', v') :: rest => if k' = k then (k', f v') :: rest else (k', v') :: upsert k f v rest

/-- Build a Python `dict` from a list of key-value pairs (later bindings
for the same key overwrite earlier ones, insertion order is kept). -/
def dictOfPairs {α : Type} (l : List (Nat × α)) : List (Nat × α) :=
  l.foldl (fun acc p => upsert p.1 (fun _ => p.2) p.2 acc) []

/-! ### Stable descending sort (Python `list.sort(..., reverse=True)`)

Python's sort is stable; `sortTop ge` is a stable insertion sort that puts
`x` before `y` exactly when `ge x y`, where `ge x y` means "`x` may come
before `y`" (i.e. `y`'s key is not strictly greater than `x`'s). -/

def insertTop {α : Type} (ge : α → α → Bool) (x : α) : List α → List α
  | [] => [x]
  | y :: ys => if ge x y then x :: y :: ys else y :: insertTop ge x ys

def sortTop {α : Type} (ge : α → α → Bool) (l : List α) : List α :=
  l.foldr (insertTop ge) []

/-! ### Fixed lookup tables -/

/-- The name-to-code table shared by `_get_genre_ids` and
`_get_genre_id_by_name` (the code repeats the same 19-entry literal). -/
def genre_mapping : List (String × Nat) :=
  [("Action", 28), ("Adventure", 12), ("Animation", 16), ("Comedy", 35),
   ("Crime", 80), ("Documentary", 99), ("Drama", 18), ("Family", 10751),
   ("Fantasy", 14), ("History", 36), ("Horror", 27), ("Music", 10402),
   ("Mystery", 9648), ("Romance", 10749), ("Science Fiction", 878),
   ("TV Movie", 10770), ("Thriller", 53), ("War", 10752), ("Western", 37)]

/-- `ContentBasedFiltering._get_genre_id_by_name`. -/
def getGenreId (name : String) : Option Nat :=
  (genre_mapping.find? (fun p => p.1 == name)).map Prod.snd

/-- `ContentBasedFiltering._get_genre_ids`. -/
def getGenreIds (names : List String) : List Nat :=
  names.filterMap getGenreId

/-- The `genre_weights` table of `ContentBasedFiltering.__init__`. -/
def genre_weights : List (Nat × ℚ) :=
  [(28, 1), (12, 1), (10752, 1),
   (18, 9/10), (10749, 9/10),
   (35, 4/5), (10751, 4/5),
   (53, 9/10), (27, 7/10),
   (878, 1), (14, 1),
   (99, 3/5), (10770, 1/2)]

/-- `self.genre_weights.get(genre_id, 0.5)`. -/
def genreWeight (g : Nat) : ℚ :=
  ((genre_weights.find? (fun p => p.1 == g)).map Prod.snd).getD (1/2)

/-! ### Store queries -/

/-- `MovieRating.objects.filter(user=user)` for one user. -/
def ratingRows (db : Db) (uid : Nat) : List RatingRow :=
  db.ratings.filter (fun r => r.user_id == uid)

/-- `dict(MovieRating.objects.filter(user=user).values_list('movie_id', 'rating'))`. -/
def userRatings (db : Db) (uid : Nat) : List (Nat × ℚ) :=
  dictOfPairs ((ratingRows db uid).map (fun r => (r.movie_id, r.rating)))

/-- The movie ids the user has rated. -/
def ratedMovieIds (db : Db) (uid : Nat) : List Nat :=
  (ratingRows db uid).map (fun r => r.movie_id)

/-- The movie ids the user has favorited. -/
def favoriteMovieIds (db : Db) (uid : Nat) : List Nat :=
  (db.favorites.filter (fun f => f.user_id == uid)).map (fun f => f.movie_id)

/-- The `excluded_movies` set of the content and popularity strategies:
favorites plus rated movies (only membership is ever used). -/
def excludedMovieIds (db : Db) (uid : Nat) : List Nat :=
  favoriteMovieIds db uid ++ ratedMovieIds db uid

/-- `Movie.objects.get(id=movie_id)`, returning `none` on `DoesNotExist`. -/
def findMovie (db : Db) (mid : Nat) : Option Movie :=
  db.movies.find? (fun m => m.id == mid)

/-! ### Content-based filtering (`ContentBasedFiltering`) -/

/-- `MovieRating.objects.filter(user=user, rating__gte=4.0)`. -/
def highRatedRows (db : Db) (uid : Nat) : List RatingRow :=
  (ratingRows db uid).filter (fun r => decide ((4 : ℚ) ≤ r.rating))

/-- One iteration of the explicit-genre loop of `_build_user_profile`:
`profile[genre_id] = 1.0` for a recognized genre name. -/
def profileAddGenre (acc : List (Nat × ℚ)) (g : String) : List (Nat × ℚ) :=
  match getGenreId g with
  | some gid => upsert gid (fun _ => (1 : ℚ)) 1 acc
  | none => acc

/-- One iteration of the inner genre loop of the rating-history part of
`_build_user_profile`: `max`-merge `genre_base_weight * rating / 5`. -/
def profileAddMovieGenre (r : ℚ) (acc : List (Nat × ℚ)) (g : Nat) : List (Nat × ℚ) :=
  let w := genreWeight g * (r / 5)
  upsert g (fun old => max old w) w acc

/-- One iteration of the rating loop of `_build_user_profile`.  (The
`select_related` join always finds the movie under foreign-key integrity;
a dangling reference is skipped.) -/
def profileAddRating (db : Db) (acc : List (Nat × ℚ)) (r : RatingRow) : List (Nat × ℚ) :=
  match findMovie db r.movie_id with
  | none => acc
  | some m => m.genre_ids.foldl (profileAddMovieGenre r.rating) acc

/-- `_build_user_profile`: explicit preferred genres at weight 1.0, then
for every rating ≥ 4.0 and every genre of the rated movie the weight
`genre_base_weight * rating / 5`, merged by `max`. -/
def buildUserProfile (db : Db) (u : User) : List (Nat × ℚ) :=
  (highRatedRows db u.id).foldl (profileAddRating db)
    (u.preferred_genres.foldl profileAddGenre [])

/-- One iteration of the genre loop of `_calculate_content_similarity`,
accumulating (`similarity_sum`, `weight_sum`). -/
def contentSumsStep (profile : List (Nat × ℚ)) (acc : ℚ × ℚ) (g : Nat) : ℚ × ℚ :=
  match profile.find? (fun p => p.1 == g) with
  | some pv => (acc.1 + pv.2 * genreWeight g, acc.2 + genreWeight g)
  | none => acc

/-- The two accumulators (`similarity_sum`, `weight_sum`) of
`_calculate_content_similarity`. -/
def contentSums (profile : List (Nat × ℚ)) (m : Movie) : ℚ × ℚ :=
  m.genre_ids.foldl (contentSumsStep profile) (0, 0)

/-- The `base_score` variable of `_calculate_content_similarity` (0 when
the weight sum is 0, in which case the code returns early). -/
def contentBaseScore (profile : List (Nat × ℚ)) (m : Movie) : ℚ :=
  let s := contentSums profile m
  if s.2 = 0 then 0 else s.1 / s.2

/-- The quality blend `0.6 + 0.2*min(popularity/100,1) + 0.2*min(rating/10,1)`. -/
def qualityFactor (m : Movie) : ℚ :=
  3/5 + 1/5 * min (m.popularity / 100) 1 + 1/5 * min (m.vote_average / 10) 1

/-- `_calculate_content_similarity`. -/
def contentSimilarity (profile : List (Nat × ℚ)) (m : Movie) : ℚ :=
  if m.genre_ids = [] then 0
  else if (contentSums profile m).2 = 0 then 0
  else min (contentBaseScore profile m * qualityFactor m) 1

/-- Ordering key of `Movie.objects.order_by('-popularity', '-vote_average')`. -/
def movieOrdGe (a b : Movie) : Bool :=
  decide (b.popularity < a.popularity ∨
    (a.popularity = b.popularity ∧ b.vote_average ≤ a.vote_average))

/-- Candidate query of `ContentBasedFiltering.get_recommendations`:
movies overlapping the preferred genre ids, minus excluded ones, by
popularity and rating descending, capped at `3 * limit`. -/
def contentCandidates (db : Db) (u : User) (limit : Nat) : List Movie :=
  let prefIds := getGenreIds u.preferred_genres
  let excluded := excludedMovieIds db u.id
  (sortTop movieOrdGe (db.movies.filter (fun m =>
    m.genre_ids.any (fun g => prefIds.contains g) && !(excluded.contains m.id)))).take (limit * 3)

/-- The scored (pre-sort, pre-truncation) recommendation list of
`ContentBasedFiltering.get_recommendations`: candidates whose similarity
score exceeds 0.1. -/
def contentScored (db : Db) (u : User) (limit : Nat) : List (Entry ℚ) :=
  (contentCandidates db u limit).filterMap (fun m =>
    if 1/10 < contentSimilarity (buildUserProfile db u) m then
      some ⟨m, contentSimilarity (buildUserProfile db u) m,
        Reason.contentBased u.preferred_genres⟩
    else none)

/-- Descending stable comparison on rational scores. -/
def scoreGeQ (a b : Entry ℚ) : Bool := decide (b.score ≤ a.score)

/-- `ContentBasedFiltering.get_recommendations`. -/
def contentRecommendations (db : Db) (u : User) (limit : Nat) : List (Entry ℚ) :=
  if buildUserProfile db u = [] then []
  else (sortTop scoreGeQ (contentScored db u limit)).take limit

/-! ### Popularity fallback (`HybridRecommendationEngine._get_popularity_recommendations`) -/

/-- `_get_popularity_recommendations`: popular well-rated unseen movies by
popularity descending, each scored
`(0.6*min(popularity/100,1) + 0.4*vote_average/10) * POPULARITY_WEIGHT`. -/
def popularityRecommendations (cfg : Config) (db : Db) (uid : Nat) (limit : Nat) :
    List (Entry ℚ) :=
  let excluded := excludedMovieIds db uid
  let movies := (sortTop (fun a b => decide (b.popularity ≤ a.popularity))
    (db.movies.filter (fun m =>
      decide ((10 : ℚ) < m.popularity) && decide ((6 : ℚ) < m.vote_average) &&
      decide (100 < m.vote_count) && !(excluded.contains m.id)))).take limit
  movies.map (fun m =>
    ⟨m, (min (m.popularity / 100) 1 * (3/5) + m.vote_average / 10 * (2/5)) *
      cfg.popularity_weight, Reason.popularity⟩)

/-! ### Similarity engine (`CollaborativeFiltering`)

The `** 0.5` norms force real arithmetic; everything from here on lives in
`ℝ` and is noncomputable only because of `Real.sqrt` and real-number
comparisons. -/

/-- `self.min_common_ratings` of `CollaborativeFiltering.__init__`. -/
def minCommonRatings : Nat := 5

/-- `ratings[movie]` on a rating dictionary. -/
def lookupRating (rs : List (Nat × ℚ)) (m : Nat) : ℚ :=
  ((rs.find? (fun p => p.1 == m)).map Prod.snd).getD 0

/-- `set(ratings1.keys()) & set(ratings2.keys())` (deduplicated). -/
def commonMovies (r1 r2 : List (Nat × ℚ)) : List Nat :=
  ((r1.map Prod.fst).filter (fun m => (r2.map Prod.fst).contains m)).dedup

/-- `sum(ratings1[movie] * ratings2[movie] for movie in common_movies)`. -/
def dotProductR (r1 r2 : List (Nat × ℚ)) : ℝ :=
  ((commonMovies r1 r2).map (fun m =>
    (lookupRating r1 m : ℝ) * (lookupRating r2 m : ℝ))).sum

/-- `sum(rating ** 2 for rating in ratings.values()) ** 0.5`: the L2 norm
of a user's full rating vector. -/
noncomputable def vectorNorm (rs : List (Nat × ℚ)) : ℝ :=
  Real.sqrt ((rs.map (fun p => ((p.2 : ℝ)) ^ 2)).sum)

/-- `CollaborativeFiltering._calculate_cosine_similarity`: 0 below the
common-rating threshold or on a zero norm, otherwise the dot product over
the common movies divided by the product of the full-vector norms. -/
noncomputable def cosineSimilarity (r1 r2 : List (Nat × ℚ)) : ℝ :=
  if (commonMovies r1 r2).length < minCommonRatings then 0
  else if vectorNorm r1 = 0 ∨ vectorNorm r2 = 0 then 0
  else dotProductR r1 r2 / (vectorNorm r1 * vectorNorm r2)

/-- `User.objects.filter(movie_ratings__isnull=False).distinct()`. -/
def usersWithRatings (db : Db) : List User :=
  db.users.filter (fun u => db.ratings.any (fun r => r.user_id == u.id))

/-- `CollaborativeFiltering.get_user_similarity_matrix` (cold computation;
the 1-hour cache only memoizes this value).  Users with fewer than 5
ratings get no row and appear in no row; only similarities above 0.1 are
stored. -/
noncomputable def userSimilarityMatrix (db : Db) : List (Nat × List (Nat × ℝ)) :=
  (usersWithRatings db).filterMap (fun u =>
    if (userRatings db u.id).length < minCommonRatings then none
    else some (u.id, (usersWithRatings db).filterMap (fun v =>
      if v.id = u.id then none
      else if (userRatings db v.id).length < minCommonRatings then none
      else if 1/10 < cosineSimilarity (userRatings db u.id) (userRatings db v.id) then
        some (v.id, cosineSimilarity (userRatings db u.id) (userRatings db v.id))
      else none)))

/-- The `movie_scores` accumulation loop of
`CollaborativeFiltering.get_recommendations`: for every neighbor in matrix
order and each of its ratings on movies the user has not rated, accumulate
`weighted_sum += rating * similarity` and `weight_sum += |similarity|`. -/
noncomputable def accumNeighborScores (db : Db) (rated : List Nat)
    (row : List (Nat × ℝ)) : List (Nat × ℝ × ℝ) :=
  row.foldl (fun acc p =>
    (db.ratings.filter (fun r => r.user_id == p.1 && !(rated.contains r.movie_id))).foldl
      (fun acc r =>
        upsert r.movie_id (fun ws => (ws.1 + (r.rating : ℝ) * p.2, ws.2 + |p.2|))
          ((r.rating : ℝ) * p.2, |p.2|) acc)
      acc) []

/-- Descending stable comparison on real scores. -/
noncomputable def scoreGeR (a b : Entry ℝ) : Bool := decide (b.score ≤ a.score)

/-- `CollaborativeFiltering.get_recommendations`: empty when the user has
no row in the similarity matrix, otherwise predicted ratings
`weighted_sum / weight_sum` for movies with positive weight sum, sorted
descending and truncated. -/
noncomputable def collaborativeRecommendations (db : Db) (uid : Nat) (limit : Nat) :
    List (Entry ℝ) :=
  match (userSimilarityMatrix db).find? (fun p => p.1 == uid) with
  | none => []
  | some pr =>
    let rated := ratedMovieIds db uid
    let recs := (accumNeighborScores db rated pr.2).filterMap (fun ms =>
      if (0 : ℝ) < ms.2.2 then
        match findMovie db ms.1 with
        | some m => some (⟨m, ms.2.1 / ms.2.2, Reason.collaborative (ms.2.1 / ms.2.2)⟩ : Entry ℝ)
        | none => none
      else none)
    (sortTop scoreGeR recs).take limit

/-! ### Hybrid engine (`HybridRecommendationEngine.get_recommendations`) -/

/-- Exact cast of a rational-scored entry into the real-scored world. -/
def Entry.toReal (e : Entry ℚ) : Entry ℝ := ⟨e.movie, (e.score : ℝ), e.reason⟩

/-- The weighted collaborative contribution of the hybrid engine, gated on
`MIN_RATING_COUNT`. -/
noncomputable def hybridCollabPart (cfg : Config) (db : Db) (u : User) (limit : Nat) :
    List (Entry ℝ) :=
  if cfg.min_rating_count ≤ (ratingRows db u.id).length then
    (collaborativeRecommendations db u.id (limit / 2)).map (fun e =>
      ⟨e.movie, e.score * (cfg.collaborative_weight : ℝ), e.reason⟩)
  else []

/-- The weighted content-based contribution of the hybrid engine. -/
noncomputable def hybridContentPart (cfg : Config) (db : Db) (u : User) (limit : Nat) :
    List (Entry ℝ) :=
  (contentRecommendations db u (limit / 2)).map (fun e =>
    ⟨e.movie, ((e.score * cfg.content_based_weight : ℚ) : ℝ), e.reason⟩)

/-- The `all_recommendations` list: the weighted collaborative contribution
(gated on `MIN_RATING_COUNT`), then the weighted content contribution, then
— only if the combined length is still short of `limit` — the popularity
padding, in that order. -/
noncomputable def hybridAll (cfg : Config) (db : Db) (u : User) (limit : Nat) :
    List (Entry ℝ) :=
  (hybridCollabPart cfg db u limit ++ hybridContentPart cfg db u limit) ++
    (if (hybridCollabPart cfg db u limit ++ hybridContentPart cfg db u limit).length
        < limit then
      (popularityRecommendations cfg db u.id
        (limit - (hybridCollabPart cfg db u limit ++
          hybridContentPart cfg db u limit).length)).map Entry.toReal
    else [])

/-- One step of the `unique_recommendations` dictionary loop: a duplicate
movie keeps the maximum of the two scores but the reason (and position) of
the first-seen entry, while the movie object is taken from the new tuple. -/
noncomputable def mergeStep (acc : List (Nat × Entry ℝ)) (e : Entry ℝ) :
    List (Nat × Entry ℝ) :=
  upsert e.movie.id (fun old => ⟨e.movie, max old.score e.score, old.reason⟩) e acc

/-- The deduplication step of `HybridRecommendationEngine.get_recommendations`
(`unique_recommendations`, read back with `.values()`). -/
noncomputable def mergeRecs (l : List (Entry ℝ)) : List (Entry ℝ) :=
  (l.foldl mergeStep []).map Prod.snd

/-- `HybridRecommendationEngine.get_recommendations` (the successful path):
merge the strategy contributions, deduplicate, sort by score descending
(stable) and truncate to `limit`. -/
noncomputable def hybridGetRecommendations (cfg : Config) (db : Db) (u : User)
    (limit : Nat) : List (Entry ℝ) :=
  (sortTop scoreGeR (mergeRecs (hybridAll cfg db u limit))).take limit

/-! ### Failure behavior of the hybrid engine

The whole body of `get_recommendations` sits inside `try/except Exception`
whose handler logs and returns `[]`.  The first store access is
`user.movie_ratings.count()`, so a store that fails on every access makes
the body raise there; the snapshot fetch below models that first access. -/

/-- The body of `HybridRecommendationEngine.get_recommendations` before its
exception handler: fetch the snapshot (the first store access — it raises
if the store is unreachable), then compute the pure pipeline. -/
noncomputable def hybridCoreE (cfg : Config) (store : Except String Db) (u : User)
    (limit : Nat) : Except String (List (Entry ℝ)) :=
  match store with
  | .error e => .error e
  | .ok db => .ok (hybridGetRecommendations cfg db u limit)

/-- `HybridRecommendationEngine.get_recommendations` with its top-level
`except Exception` handler: any failure of the body is absorbed into an
empty, normally-returned list. -/
noncomputable def hybridGetRecommendationsSafe (cfg : Config) (store : Except String Db)
    (u : User) (limit : Nat) : List (Entry ℝ) :=
  match hybridCoreE cfg store u limit with
  | .ok r => r
  | .error _ => []

/-! ### Small concrete worlds used by witnesses and counterexamples -/

/-- An Action movie that passes every popularity-fallback threshold. -/
def mov101 : Movie := ⟨101, [28], 50, 8, 200⟩

/-- A genre-less movie that passes every popularity-fallback threshold. -/
def mov102 : Movie := ⟨102, [], 40, 8, 200⟩

/-- A user with one preferred genre and no interaction history. -/
def userA : User := ⟨1, ["Action"]⟩

/-- A user whose preferred-genre names match nothing in the fixed table,
but who has rating and favorite history. -/
def userB : User := ⟨2, ["Sci-Fi", "Rom-Com"]⟩

/-- A catalog of two movies; `userB` has rated and favorited `mov101`. -/
def dbSmall : Db :=
  ⟨[mov101, mov102], [userA, userB], [⟨2, 101, 5⟩], [⟨2, 101⟩]⟩

/-- Specification-level view of one merge collision: absent key inserts
the entry, a collision keeps the maximum score and the first reason. -/
noncomputable def mergeOne (o : Option (Entry ℝ)) (e : Entry ℝ) : Entry ℝ :=
  match o with
  | none => e
  | some old => ⟨e.movie, max old.score e.score, old.reason⟩

/-- The two colliding contributions of the claim's example: movie 42 from
the collaborative strategy at score 0.7 (merged first) and from the
content strategy at score 0.9 (merged second). -/
noncomputable def entR1 : Entry ℝ := ⟨⟨42, [], 0, 0, 0⟩, 0.7, Reason.collaborative 0.7⟩

/-- The later, higher-scoring contribution for the same movie. -/
noncomputable def entR2 : Entry ℝ := ⟨⟨42, [], 0, 0, 0⟩, 0.9, Reason.contentBased ["Drama"]⟩

/-- A store where users 1 and 2 both rated movies 1-5 at 2.0 stars and
user 2 additionally rated movie 6 at 5.0 stars. -/
def dbTwin : Db :=
  ⟨[⟨1, [], 0, 0, 0⟩, ⟨2, [], 0, 0, 0⟩, ⟨3, [], 0, 0, 0⟩, ⟨4, [], 0, 0, 0⟩,
    ⟨5, [], 0, 0, 0⟩, ⟨6, [], 0, 0, 0⟩],
   [⟨1, []⟩, ⟨2, []⟩],
   [⟨1, 1, 2⟩, ⟨1, 2, 2⟩, ⟨1, 3, 2⟩, ⟨1, 4, 2⟩, ⟨1, 5, 2⟩,
    ⟨2, 1, 2⟩, ⟨2, 2, 2⟩, ⟨2, 3, 2⟩, ⟨2, 4, 2⟩, ⟨2, 5, 2⟩, ⟨2, 6, 5⟩],
   []⟩

/-- Scenario A of the spec: user 1 rated movies 1-5 at
{5.0, 4.5, 4.0, 5.0, 3.5}; user 2 rated the same five movies identically
and additionally movie 6 at 5.0.  The catalog holds movie 6 (the only one
the collaborative filter needs to look up). -/
def dbScenA : Db :=
  ⟨[⟨6, [], 0, 0, 0⟩],
   [⟨1, []⟩, ⟨2, []⟩],
   [⟨1, 1, 5⟩, ⟨1, 2, 9/2⟩, ⟨1, 3, 4⟩, ⟨1, 4, 5⟩, ⟨1, 5, 7/2⟩,
    ⟨2, 1, 5⟩, ⟨2, 2, 9/2⟩, ⟨2, 3, 4⟩, ⟨2, 4, 5⟩, ⟨2, 5, 7/2⟩, ⟨2, 6, 5⟩],
   []⟩

/-- Modelled from the spec: the "eligible items system-wide" of property
P4 — catalog movies the user has neither rated nor favorited. -/
def eligibleMovies (db : Db) (uid : Nat) : List Movie :=
  db.movies.filter (fun m => !((excludedMovieIds db uid).contains m.id))

/-- A store for the favorites counterexample: user 1 rated movies 1-5 at
2.0 stars, user 2 rated the same five at 2.0 and movie 6 at 5.0, and user
1 has movie 6 as a favorite.  No movie passes the popularity-fallback
thresholds and none carries genres. -/
def dbFav : Db :=
  ⟨[⟨1, [], 0, 0, 0⟩, ⟨2, [], 0, 0, 0⟩, ⟨3, [], 0, 0, 0⟩, ⟨4, [], 0, 0, 0⟩,
    ⟨5, [], 0, 0, 0⟩, ⟨6, [], 0, 0, 0⟩],
   [⟨1, []⟩, ⟨2, []⟩],
   [⟨1, 1, 2⟩, ⟨1, 2, 2⟩, ⟨1, 3, 2⟩, ⟨1, 4, 2⟩, ⟨1, 5, 2⟩,
    ⟨2, 1, 2⟩, ⟨2, 2, 2⟩, ⟨2, 3, 2⟩, ⟨2, 4, 2⟩, ⟨2, 5, 2⟩, ⟨2, 6, 5⟩],
   [⟨1, 6⟩]⟩

/-- A configuration with the spec's stated default-style weights. -/
def cfgStd : Config := ⟨5, 1/2, 3/10, 1/5⟩

end MovieRec

namespace MovieRec

/-! ### General-purpose helper lemmas -/

theorem any_const_false {α : Type} (l : List α) : (l.any fun _ => false) = false := by
  induction l with
  | nil => rfl
  | cons x l ih => simp [List.any, ih]

/-! ### C10: content-based filtering with no recognized preferred genre -/

/-- C10: if none of the user's preferred-genre names occurs in the fixed
name-to-code table (in particular if the list is empty), then
`ContentBasedFiltering.get_recommendations` returns the empty list no
matter what the user has rated or favorited: candidates are selected
solely by overlap with the codes of the explicit preferred names, and an
empty code list overlaps nothing. -/
theorem content_empty_without_known_genre (db : Db) (u : User) (limit : Nat)
    (h : ∀ g ∈ u.preferred_genres, getGenreId g = none) :
    contentRecommendations db u limit = [] := by
  have hids : getGenreIds u.preferred_genres = [] := by
    simp only [getGenreIds, List.filterMap_eq_nil_iff]
    exact h
  unfold contentRecommendations
  split
  · rfl
  · have hc : contentCandidates db u limit = [] := by
      simp [contentCandidates, hids, sortTop, any_const_false]
    simp [contentScored, hc, sortTop]

/-- Witness for C10 at a concrete store: `userB`'s preferred names
("Sci-Fi", "Rom-Com") are not in the table, and although `userB` has
rated and favorited a movie, the content strategy yields nothing. -/
theorem content_empty_without_known_genre_witness :
    (∀ g ∈ userB.preferred_genres, getGenreId g = none) ∧
    contentRecommendations dbSmall userB 20 = [] :=
  ⟨by decide, content_empty_without_known_genre dbSmall userB 20 (by decide)⟩

/-! ### C6: scores of the popularity-fallback contribution -/

/-- Counterexample to C6: with `POPULARITY_WEIGHT = 1/5`, the entry the
popularity fallback produces for `mov101` has score
`(0.6*min(50/100,1) + 0.4*(8/10)) * 1/5 = 31/250`, not the unweighted
blend `31/50` the claim asserts. -/
theorem popularity_weight_applied_cex :
    ∃ e ∈ popularityRecommendations cfgStd dbSmall 1 1,
      e.score ≠ min (e.movie.popularity / 100) 1 * (3/5) +
        e.movie.vote_average / 10 * (2/5) := by
  refine ⟨⟨mov101, 31/250, Reason.popularity⟩, ?_, by norm_num [mov101]⟩
  have : popularityRecommendations cfgStd dbSmall 1 1 =
      [⟨mov101, 31/250, Reason.popularity⟩] := by
    norm_num [popularityRecommendations, excludedMovieIds, favoriteMovieIds,
      ratedMovieIds, ratingRows, dbSmall, mov101, mov102, sortTop, insertTop, cfgStd]
  rw [this]
  exact List.mem_singleton_self _

/-- C6 as amended: every entry contributed by the popularity fallback has
score `(0.6 * min(popularity/100, 1) + 0.4 * vote_average/10)` multiplied
by the configured `POPULARITY_WEIGHT` — the code applies that blending
constant at line 452, contrary to the claim. -/
theorem popularity_score_formula (cfg : Config) (db : Db) (uid limit : Nat)
    (e : Entry ℚ) (he : e ∈ popularityRecommendations cfg db uid limit) :
    e.score = (min (e.movie.popularity / 100) 1 * (3/5) +
      e.movie.vote_average / 10 * (2/5)) * cfg.popularity_weight := by
  unfold popularityRecommendations at he
  rw [List.mem_map] at he
  obtain ⟨m, _, rfl⟩ := he
  rfl

/-- Witness for the amended C6 at the concrete store: the single
popularity entry carries `31/50 * 1/5 = 31/250`. -/
theorem popularity_score_formula_witness :
    (⟨mov101, 31/250, Reason.popularity⟩ : Entry ℚ) ∈
      popularityRecommendations cfgStd dbSmall 1 1 ∧
    (31/250 : ℚ) = (min (mov101.popularity / 100) 1 * (3/5) +
      mov101.vote_average / 10 * (2/5)) * cfgStd.popularity_weight := by
  have hm : (⟨mov101, 31/250, Reason.popularity⟩ : Entry ℚ) ∈
      popularityRecommendations cfgStd dbSmall 1 1 := by
    have : popularityRecommendations cfgStd dbSmall 1 1 =
        [⟨mov101, 31/250, Reason.popularity⟩] := by
      norm_num [popularityRecommendations, excludedMovieIds, favoriteMovieIds,
        ratedMovieIds, ratingRows, dbSmall, mov101, mov102, sortTop, insertTop, cfgStd]
    rw [this]
    exact List.mem_singleton_self _
  refine ⟨hm, ?_⟩
  have h2 := popularity_score_formula cfgStd dbSmall 1 1 _ hm
  simpa using h2

/-! ### C9: determinism of the hybrid engine -/

/-- C9: for one fixed snapshot of ratings/favorites/catalog and one fixed
configuration, two invocations of
`HybridRecommendationEngine.get_recommendations` return the same ordered
list (same movies, scores and reasons in the same order).  The embedding
is a pure function of the snapshot, which is faithful because every source
of iteration order in the code — insertion-ordered `dict`s, stable
`list.sort`, queryset order — is deterministic for a fixed store. -/
theorem hybrid_deterministic (cfg cfg' : Config) (db db' : Db) (u u' : User)
    (limit limit' : Nat) (hc : cfg = cfg') (hd : db = db') (hu : u = u')
    (hl : limit = limit') :
    hybridGetRecommendations cfg db u limit =
      hybridGetRecommendations cfg' db' u' limit' := by
  subst hc; subst hd; subst hu; subst hl; rfl

/-- Witness for C9 at a concrete store and configuration. -/
theorem hybrid_deterministic_witness :
    cfgStd = cfgStd ∧
    hybridGetRecommendations cfgStd dbSmall userA 2 =
      hybridGetRecommendations cfgStd dbSmall userA 2 :=
  ⟨rfl, hybrid_deterministic cfgStd cfgStd dbSmall dbSmall userA userA 2 2
    rfl rfl rfl rfl⟩

/-! ### C4: failure policy of the hybrid engine -/

/-- Counterexample to C4: with a store that fails on every access, the
body of `get_recommendations` does fail (first conjunct), yet the method
returns the empty list as a normal value (second conjunct) — the
top-level `except Exception` handler at lines 420-422 absorbs the total
failure instead of propagating it to the caller. -/
theorem hybrid_total_failure_cex :
    hybridCoreE cfgStd (.error "store unreachable") userA 20 =
      .error "store unreachable" ∧
    hybridGetRecommendationsSafe cfgStd (.error "store unreachable") userA 20 = [] :=
  ⟨rfl, rfl⟩

/-- C4 as amended: `HybridRecommendationEngine.get_recommendations` never
propagates a failure.  Its whole body is wrapped in `try/except Exception`
which logs and returns `[]`, so even a total pipeline failure (every store
access raising) is absorbed into a normally-returned empty list; only the
empty result — not an exception — tells the caller to fall back. -/
theorem hybrid_total_failure_absorbed (cfg : Config) (e : String) (u : User)
    (limit : Nat) :
    hybridGetRecommendationsSafe cfg (.error e) u limit = [] := rfl

/-! ### Association-list lemmas for the dictionary model -/

theorem find?_upsert_self {α : Type} (k : Nat) (f : α → α) (v : α)
    (l : List (Nat × α)) :
    (upsert k f v l).find? (fun p => p.1 == k) =
      some (k, ((l.find? (fun p => p.1 == k)).map (fun p => f p.2)).getD v) := by
  induction l with
  | nil => simp [upsert]
  | cons hd tl ih =>
    obtain ⟨k', v'⟩ := hd
    by_cases h : k' = k
    · subst h
      rw [upsert, if_pos rfl, List.find?_cons_of_pos _ (by simp),
        List.find?_cons_of_pos _ (by simp)]
      rfl
    · rw [upsert, if_neg h, List.find?_cons_of_neg _ (by simp [h]),
        List.find?_cons_of_neg _ (by simp [h]), ih]

theorem find?_upsert_ne {α : Type} (k j : Nat) (f : α → α) (v : α)
    (l : List (Nat × α)) (h : j ≠ k) :
    (upsert k f v l).find? (fun p => p.1 == j) = l.find? (fun p => p.1 == j) := by
  induction l with
  | nil =>
    rw [upsert, List.find?_cons_of_neg _ (by simp [Ne.symm h])]
  | cons hd tl ih =>
    obtain ⟨k', v'⟩ := hd
    by_cases hk : k' = k
    · rw [upsert, if_pos hk]
      rw [List.find?_cons_of_neg _ (by simp [hk, Ne.symm h])]
      rw [List.find?_cons_of_neg _ (by simp [hk, Ne.symm h])]
    · rw [upsert, if_neg hk]
      by_cases hj : k' = j
      · subst hj
        rw [List.find?_cons_of_pos _ (by simp), List.find?_cons_of_pos _ (by simp)]
      · rw [List.find?_cons_of_neg _ (by simp [hj]),
          List.find?_cons_of_neg _ (by simp [hj]), ih]

theorem keys_upsert {α : Type} (k : Nat) (f : α → α) (v : α) (l : List (Nat × α)) :
    (upsert k f v l).map Prod.fst =
      if k ∈ l.map Prod.fst then l.map Prod.fst else l.map Prod.fst ++ [k] := by
  induction l with
  | nil => simp [upsert]
  | cons hd tl ih =>
    obtain ⟨k', v'⟩ := hd
    by_cases h : k' = k
    · subst h
      simp [upsert]
    · simp only [upsert, if_neg h, List.map_cons, List.mem_cons, ih]
      by_cases hm : k ∈ tl.map Prod.fst
      · simp [hm, Ne.symm h]
      · simp [hm, Ne.symm h]

theorem nodup_keys_upsert {α : Type} (k : Nat) (f : α → α) (v : α)
    (l : List (Nat × α)) (h : (l.map Prod.fst).Nodup) :
    ((upsert k f v l).map Prod.fst).Nodup := by
  rw [keys_upsert]
  by_cases hm : k ∈ l.map Prod.fst
  · simpa [hm] using h
  · rw [if_neg hm]
    refine (List.nodup_append).2 ⟨h, List.nodup_singleton _, ?_⟩
    intro a ha hak
    rw [List.mem_singleton] at hak
    exact hm (hak ▸ ha)

theorem filter_values_of_assoc {β : Type} (key : β → Nat) (i : Nat) :
    ∀ (al : List (Nat × β)), (∀ p ∈ al, key p.2 = p.1) →
      ((al.map Prod.fst).Nodup) →
      (al.map Prod.snd).filter (fun b => key b == i) =
        ((al.find? (fun p => p.1 == i)).map Prod.snd).toList := by
  intro al
  induction al with
  | nil => intro _ _; rfl
  | cons hd tl ih =>
    intro hco hnd
    obtain ⟨k, b⟩ := hd
    have hkb : key b = k := hco (k, b) (List.mem_cons_self _ _)
    rw [List.map_cons] at hnd
    obtain ⟨hknot, hnd'⟩ := List.nodup_cons.1 hnd
    by_cases h : k = i
    · subst h
      have htlv : (tl.map Prod.snd).filter (fun b => key b == k) = [] := by
        rw [List.filter_eq_nil_iff]
        intro c hc hck
        obtain ⟨p, hp, rfl⟩ := List.mem_map.1 hc
        have hcp : key p.2 = p.1 := hco p (List.mem_cons_of_mem _ hp)
        have hpk : p.1 = k := by
          rw [beq_iff_eq] at hck
          rw [← hcp, hck]
        have hmem : p.1 ∈ tl.map Prod.fst := List.mem_map_of_mem Prod.fst hp
        rw [hpk] at hmem
        exact hknot hmem
      rw [List.map_cons, List.filter_cons_of_pos (by simp [hkb]),
        List.find?_cons_of_pos _ (by simp), htlv]
      rfl
    · rw [List.map_cons, List.filter_cons_of_neg (by simp [hkb, h]),
        List.find?_cons_of_neg _ (by simp [h]),
        ih (fun p hp => hco p (List.mem_cons_of_mem _ hp)) hnd']
theorem upsert_forall {α : Type} (P : Nat × α → Prop) (k : Nat) (f : α → α)
    (v : α) (l : List (Nat × α)) (hl : ∀ p ∈ l, P p) (hv : P (k, v))
    (hf : ∀ p ∈ l, p.1 = k → P (k, f p.2)) :
    ∀ p ∈ upsert k f v l, P p := by
  induction l with
  | nil =>
    intro p hp
    simp [upsert] at hp
    subst hp; exact hv
  | cons hd tl ih =>
    obtain ⟨k', v'⟩ := hd
    by_cases h : k' = k
    · subst h
      intro p hp
      simp only [upsert, if_pos rfl] at hp
      rcases List.mem_cons.1 hp with h1 | h1
      · subst h1
        exact hf (k', v') (List.mem_cons_self _ _) rfl
      · exact hl p (List.mem_cons_of_mem _ h1)
    · intro p hp
      simp only [upsert, if_neg h] at hp
      rcases List.mem_cons.1 hp with h1 | h1
      · subst h1
        exact hl (k', v') (List.mem_cons_self _ _)
      · exact ih (fun q hq => hl q (List.mem_cons_of_mem _ hq))
          (fun q hq hqk => hf q (List.mem_cons_of_mem _ hq) hqk) p h1

/-! ### The deduplication fold of the hybrid engine (claim C1) -/

theorem find?_foldl_mergeStep (l : List (Entry ℝ)) (acc : List (Nat × Entry ℝ))
    (i : Nat) :
    (((l.foldl mergeStep acc).find? (fun p => p.1 == i)).map Prod.snd) =
      (l.filter (fun e => e.movie.id == i)).foldl (fun o e => some (mergeOne o e))
        ((acc.find? (fun p => p.1 == i)).map Prod.snd) := by
  induction l generalizing acc with
  | nil => rfl
  | cons e l ih =>
    rw [List.foldl_cons, ih]
    by_cases h : e.movie.id = i
    · have hstep : ((mergeStep acc e).find? (fun p => p.1 == i)).map Prod.snd =
          some (mergeOne ((acc.find? (fun p => p.1 == i)).map Prod.snd) e) := by
        unfold mergeStep
        rw [← h, find?_upsert_self]
        cases hacc : acc.find? (fun p => p.1 == e.movie.id) with
        | none => simp [mergeOne]
        | some p => simp [mergeOne]
      rw [hstep, List.filter_cons_of_pos (by simp [h]), List.foldl_cons]
    · have hstep : ((mergeStep acc e).find? (fun p => p.1 == i)).map Prod.snd =
          (acc.find? (fun p => p.1 == i)).map Prod.snd := by
        unfold mergeStep
        rw [find?_upsert_ne _ _ _ _ _ (fun hi => h hi.symm)]
      rw [hstep, List.filter_cons_of_neg (by simp [h])]

theorem foldl_mergeOne_some (cur : Entry ℝ) (rest : List (Entry ℝ)) :
    ∃ fin, rest.foldl (fun o e => some (mergeOne o e)) (some cur) = some fin ∧
      fin.score = (rest.map (fun e => e.score)).foldl max cur.score ∧
      fin.reason = cur.reason := by
  induction rest generalizing cur with
  | nil => exact ⟨cur, rfl, rfl, rfl⟩
  | cons e rest ih =>
    obtain ⟨fin, h1, h2, h3⟩ := ih (mergeOne (some cur) e)
    exact ⟨fin, h1, by simpa [mergeOne] using h2, by simpa [mergeOne] using h3⟩

theorem mergeStep_coherent (l : List (Entry ℝ)) (acc : List (Nat × Entry ℝ))
    (hacc : ∀ p ∈ acc, p.2.movie.id = p.1) :
    ∀ p ∈ l.foldl mergeStep acc, p.2.movie.id = p.1 := by
  induction l generalizing acc with
  | nil => exact hacc
  | cons e l ih =>
    rw [List.foldl_cons]
    refine ih _ ?_
    unfold mergeStep
    exact upsert_forall _ _ _ _ _ hacc rfl (fun q _ _ => rfl)

theorem mergeStep_nodup_keys (l : List (Entry ℝ)) (acc : List (Nat × Entry ℝ))
    (hacc : (acc.map Prod.fst).Nodup) :
    ((l.foldl mergeStep acc).map Prod.fst).Nodup := by
  induction l generalizing acc with
  | nil => exact hacc
  | cons e l ih =>
    rw [List.foldl_cons]
    exact ih _ (nodup_keys_upsert _ _ _ _ hacc)

/-- C1: in the deduplication step of
`HybridRecommendationEngine.get_recommendations` (lines 403-418), a movie
id occurring in the combined strategy contributions (collaborative, then
content, then popularity, in that list order) ends up with exactly one
entry, whose score is the maximum of all scores seen for that movie and
whose reason is the reason of the first contribution seen — even when the
first contribution is not the one with the maximum score. -/
theorem merge_keeps_max_score_and_first_reason (l : List (Entry ℝ)) (i : Nat)
    (first : Entry ℝ) (rest : List (Entry ℝ))
    (h : l.filter (fun e => e.movie.id == i) = first :: rest) :
    ∃ e, (mergeRecs l).filter (fun x => x.movie.id == i) = [e] ∧
      some e.score = ((first :: rest).map (fun x => x.score)).max? ∧
      e.reason = first.reason := by
  have hfold := find?_foldl_mergeStep l [] i
  rw [h] at hfold
  simp only [List.find?_nil, Option.map_none', List.foldl_cons] at hfold
  obtain ⟨fin, hf1, hf2, hf3⟩ := foldl_mergeOne_some first rest
  have hfind : (((l.foldl mergeStep []).find? (fun p => p.1 == i)).map Prod.snd) =
      some fin := by
    rw [hfold]
    simpa [mergeOne] using hf1
  have hco := mergeStep_coherent l [] (by simp)
  have hnd := mergeStep_nodup_keys l [] (by simp)
  have hfil := filter_values_of_assoc (fun e => e.movie.id) i
    (l.foldl mergeStep []) hco hnd
  refine ⟨fin, ?_, ?_, hf3⟩
  · show ((l.foldl mergeStep []).map Prod.snd).filter (fun x => x.movie.id == i) = [fin]
    rw [hfil, hfind]
    rfl
  · rw [hf2]
    rfl

/-! ### Shared sort and fold lemmas -/

theorem insertTop_perm {α : Type} (ge : α → α → Bool) (x : α) (l : List α) :
    (insertTop ge x l).Perm (x :: l) := by
  induction l with
  | nil => exact List.Perm.refl _
  | cons y ys ih =>
    rw [insertTop]
    by_cases h : ge x y
    · rw [if_pos h]
    · rw [if_neg h]
      exact (List.Perm.cons y ih).trans (List.Perm.swap x y ys)

theorem sortTop_perm {α : Type} (ge : α → α → Bool) (l : List α) :
    (sortTop ge l).Perm l := by
  induction l with
  | nil => exact List.Perm.refl _
  | cons x xs ih =>
    exact (insertTop_perm ge x (sortTop ge xs)).trans (List.Perm.cons x ih)

theorem mem_sortTop {α : Type} (ge : α → α → Bool) (l : List α) (a : α) :
    a ∈ sortTop ge l ↔ a ∈ l :=
  (sortTop_perm ge l).mem_iff

theorem foldl_preserves_mem {β γ : Type} (Q : γ → Prop) (step : γ → β → γ) :
    ∀ (l : List β) (s : γ), (∀ s' b, b ∈ l → Q s' → Q (step s' b)) → Q s →
      Q (l.foldl step s) := by
  intro l
  induction l with
  | nil => intro s _ hs; exact hs
  | cons b l ih =>
    intro s hstep hs
    rw [List.foldl_cons]
    exact ih _ (fun s' b' hb' => hstep s' b' (List.mem_cons_of_mem _ hb'))
      (hstep s b (List.mem_cons_self _ _) hs)

theorem filterMap_ite {β γ : Type} (p : β → Prop) [DecidablePred p] (f : β → γ)
    (l : List β) :
    (l.filterMap (fun b => if p b then some (f b) else none)) =
      (l.filter (fun b => decide (p b))).map f := by
  induction l with
  | nil => rfl
  | cons b l ih =>
    by_cases h : p b
    · simp only [List.filterMap_cons, List.filter_cons, h, if_true, decide_eq_true_eq,
        decide_True, List.map_cons, ih]
    · simp only [List.filterMap_cons, List.filter_cons, h, if_false, decide_eq_true_eq,
        decide_False, ih]
      simp [h]

theorem getD_find?_of_forall {α : Type} (P : α → Prop) (q : Nat × α → Bool)
    (l : List (Nat × α)) (d : α) (hl : ∀ p ∈ l, P p.2) (hd : P d) :
    P (((l.find? q).map Prod.snd).getD d) := by
  cases h : l.find? q with
  | none => simpa using hd
  | some p => simpa using hl p (List.mem_of_find?_eq_some h)

/-! ### C5: the drop threshold of the content strategy -/

theorem genreWeight_bounds (g : Nat) : 1/2 ≤ genreWeight g ∧ genreWeight g ≤ 1 := by
  unfold genreWeight
  refine getD_find?_of_forall (fun w => 1/2 ≤ w ∧ w ≤ 1) _ _ _ ?_ (by norm_num)
  intro p hp
  fin_cases hp <;> norm_num

theorem buildUserProfile_bounds (db : Db) (u : User)
    (hrate : ∀ r ∈ db.ratings, r.rating ≤ 5) :
    ∀ p ∈ buildUserProfile db u, 2/5 ≤ p.2 ∧ p.2 ≤ 1 := by
  unfold buildUserProfile
  have hbase : ∀ p ∈ u.preferred_genres.foldl profileAddGenre [], 2/5 ≤ p.2 ∧ p.2 ≤ 1 := by
    refine foldl_preserves_mem (fun acc => ∀ p ∈ acc, 2/5 ≤ p.2 ∧ p.2 ≤ 1)
      profileAddGenre u.preferred_genres [] ?_ (by simp)
    intro acc g _ hacc
    unfold profileAddGenre
    cases getGenreId g with
    | none => exact hacc
    | some gid =>
      exact upsert_forall _ _ _ _ _ hacc (by norm_num) (fun q _ _ => by norm_num)
  refine foldl_preserves_mem (fun acc => ∀ p ∈ acc, 2/5 ≤ p.2 ∧ p.2 ≤ 1)
    (profileAddRating db) (highRatedRows db u.id) _ ?_ hbase
  · intro acc r hr hacc
    unfold profileAddRating
    cases findMovie db r.movie_id with
    | none => exact hacc
    | some m =>
      have hr4 : (4 : ℚ) ≤ r.rating := by
        have := (List.mem_filter.1 hr).2
        simpa using this
      have hr5 : r.rating ≤ 5 := by
        have hmem : r ∈ db.ratings := by
          have := (List.mem_filter.1 hr).1
          exact (List.mem_filter.1 this).1
        exact hrate r hmem
      refine foldl_preserves_mem (fun acc => ∀ p ∈ acc, 2/5 ≤ p.2 ∧ p.2 ≤ 1)
        (profileAddMovieGenre r.rating) _ _ ?_ hacc
      intro acc' g _ hacc'
      unfold profileAddMovieGenre
      have hw := genreWeight_bounds g
      have hwlo : (2:ℚ)/5 ≤ genreWeight g * (r.rating / 5) := by nlinarith
      have hwhi : genreWeight g * (r.rating / 5) ≤ 1 := by nlinarith
      exact upsert_forall _ _ _ _ _ hacc' ⟨hwlo, hwhi⟩
        (fun q hq _ => ⟨le_max_of_le_right hwlo,
          max_le (hacc' q hq).2 hwhi⟩)

theorem contentSums_bounds (profile : List (Nat × ℚ))
    (hp : ∀ p ∈ profile, 2/5 ≤ p.2 ∧ p.2 ≤ 1) (gs : List Nat) (acc : ℚ × ℚ)
    (hacc : 0 ≤ acc.2 ∧ 2/5 * acc.2 ≤ acc.1 ∧ acc.1 ≤ acc.2) :
    0 ≤ (gs.foldl (contentSumsStep profile) acc).2 ∧
      2/5 * (gs.foldl (contentSumsStep profile) acc).2 ≤
        (gs.foldl (contentSumsStep profile) acc).1 ∧
      (gs.foldl (contentSumsStep profile) acc).1 ≤
        (gs.foldl (contentSumsStep profile) acc).2 := by
  induction gs generalizing acc with
  | nil => exact hacc
  | cons g gs ih =>
    rw [List.foldl_cons]
    refine ih _ ?_
    unfold contentSumsStep
    cases h : profile.find? (fun p => p.1 == g) with
    | none => exact hacc
    | some pv =>
      dsimp only
      have hpv := hp pv (List.mem_of_find?_eq_some h)
      have hw := genreWeight_bounds g
      obtain ⟨h1, h2, h3⟩ := hacc
      refine ⟨by nlinarith, by nlinarith, by nlinarith⟩

theorem contentBaseScore_cases (profile : List (Nat × ℚ))
    (hp : ∀ p ∈ profile, 2/5 ≤ p.2 ∧ p.2 ≤ 1) (m : Movie) :
    contentBaseScore profile m = 0 ∨
      (2/5 ≤ contentBaseScore profile m ∧ contentBaseScore profile m ≤ 1) := by
  have h : 0 ≤ (contentSums profile m).2 ∧
      2/5 * (contentSums profile m).2 ≤ (contentSums profile m).1 ∧
      (contentSums profile m).1 ≤ (contentSums profile m).2 := by
    unfold contentSums
    exact contentSums_bounds profile hp m.genre_ids (0, 0) (by norm_num)
  unfold contentBaseScore
  by_cases hW : (contentSums profile m).2 = 0
  · left
    simp [hW]
  · right
    rw [if_neg hW]
    have hWpos : 0 < (contentSums profile m).2 := lt_of_le_of_ne h.1 (Ne.symm hW)
    constructor
    · rw [le_div_iff₀ hWpos]
      linarith [h.2.1]
    · rw [div_le_one hWpos]
      exact h.2.2

theorem qualityFactor_bounds (m : Movie) (hpop : 0 ≤ m.popularity)
    (hva : 0 ≤ m.vote_average) :
    3/5 ≤ qualityFactor m ∧ qualityFactor m ≤ 1 := by
  unfold qualityFactor
  constructor
  · have h1 : (0:ℚ) ≤ min (m.popularity/100) 1 := le_min (by positivity) (by norm_num)
    have h2 : (0:ℚ) ≤ min (m.vote_average/10) 1 := le_min (by positivity) (by norm_num)
    linarith
  · have h1 : min (m.popularity/100) 1 ≤ (1:ℚ) := min_le_right _ _
    have h2 : min (m.vote_average/10) 1 ≤ (1:ℚ) := min_le_right _ _
    linarith

theorem contentSimilarity_gt_iff (profile : List (Nat × ℚ))
    (hp : ∀ p ∈ profile, 2/5 ≤ p.2 ∧ p.2 ≤ 1) (m : Movie)
    (hpop : 0 ≤ m.popularity) (hva : 0 ≤ m.vote_average) :
    (1/10 < contentSimilarity profile m ↔ 1/10 < contentBaseScore profile m) := by
  unfold contentSimilarity
  by_cases hg : m.genre_ids = []
  · rw [if_pos hg]
    have hb : contentBaseScore profile m = 0 := by
      unfold contentBaseScore contentSums
      rw [hg]
      norm_num
    rw [hb]
  · rw [if_neg hg]
    by_cases hW : (contentSums profile m).2 = 0
    · rw [if_pos hW]
      have hb : contentBaseScore profile m = 0 := by
        unfold contentBaseScore
        simp [hW]
      rw [hb]
    · rw [if_neg hW]
      have hbc := contentBaseScore_cases profile hp m
      have hf := qualityFactor_bounds m hpop hva
      constructor
      · intro h
        have h1 : 1/10 < contentBaseScore profile m * qualityFactor m :=
          lt_of_lt_of_le h (min_le_left _ _)
        rcases hbc with h0 | ⟨hlo, hhi⟩
        · rw [h0] at h1
          norm_num at h1
        · nlinarith [hf.2]
      · intro h
        rcases hbc with h0 | ⟨hlo, hhi⟩
        · rw [h0] at h
          norm_num at h
        · have h625 : 6/25 ≤ contentBaseScore profile m * qualityFactor m := by
            nlinarith [hf.1]
          exact lt_min (by linarith) (by norm_num)

theorem contentCandidates_subset (db : Db) (u : User) (limit : Nat) :
    ∀ m ∈ contentCandidates db u limit, m ∈ db.movies := by
  intro m hm
  unfold contentCandidates at hm
  have h1 := List.mem_of_mem_take hm
  rw [mem_sortTop] at h1
  exact (List.mem_filter.1 h1).1

/-- C5: in `ContentBasedFiltering.get_recommendations`, the kept candidate
list (before the final sort and truncation) is exactly the candidates
whose base similarity — the genre-weighted average `base_score` computed
before the popularity/rating blend — exceeds 0.1.  Under the data model
(ratings ≤ 5, nonneg popularity and vote average) the code's test on the
blended score coincides with the claim's test on the base score: every
profile weight lies in [0.4, 1], so a nonzero base score is at least 0.4
and the blend factor lies in [0.6, 1]. -/
theorem content_kept_iff_base_above (db : Db) (u : User) (limit : Nat)
    (hrate : ∀ r ∈ db.ratings, r.rating ≤ 5)
    (hmov : ∀ m ∈ db.movies, 0 ≤ m.popularity ∧ 0 ≤ m.vote_average) :
    contentScored db u limit =
      ((contentCandidates db u limit).filter (fun m =>
        decide (1/10 < contentBaseScore (buildUserProfile db u) m))).map
        (fun m => ⟨m, contentSimilarity (buildUserProfile db u) m,
          Reason.contentBased u.preferred_genres⟩) := by
  unfold contentScored
  rw [filterMap_ite (fun m => 1/10 < contentSimilarity (buildUserProfile db u) m)
    (fun m => (⟨m, contentSimilarity (buildUserProfile db u) m,
      Reason.contentBased u.preferred_genres⟩ : Entry ℚ))]
  refine congrArg (List.map _) (List.filter_congr ?_)
  intro m hm
  have hmdb := contentCandidates_subset db u limit m hm
  simp only [decide_eq_decide]
  exact contentSimilarity_gt_iff _ (buildUserProfile_bounds db u hrate) m
    (hmov m hmdb).1 (hmov m hmdb).2

/-- Witness for C5 at the concrete store `dbSmall` (rating 5 ≤ 5,
nonnegative popularity and vote averages). -/
theorem content_kept_iff_base_above_witness :
    (∀ r ∈ dbSmall.ratings, r.rating ≤ 5) ∧
    contentScored dbSmall userA 1 =
      ((contentCandidates dbSmall userA 1).filter (fun m =>
        decide (1/10 < contentBaseScore (buildUserProfile dbSmall userA) m))).map
        (fun m => ⟨m, contentSimilarity (buildUserProfile dbSmall userA) m,
          Reason.contentBased userA.preferred_genres⟩) :=
  ⟨by intro r hr; fin_cases hr; norm_num [dbSmall],
   content_kept_iff_base_above dbSmall userA 1
     (by intro r hr; fin_cases hr; norm_num [dbSmall])
     (by intro m hm; fin_cases hm <;> norm_num [mov101, mov102])⟩

/-! ### C8: bounds on the stored similarity matrix -/

theorem lookupRating_nil (m : Nat) : lookupRating [] m = 0 := rfl

theorem lookupRating_cons (k : Nat) (v : ℚ) (tl : List (Nat × ℚ)) (m : Nat) :
    lookupRating ((k, v) :: tl) m = if k = m then v else lookupRating tl m := by
  by_cases h : k = m
  · rw [if_pos h]
    unfold lookupRating
    rw [List.find?_cons_of_pos _ (by simp [h])]
    rfl
  · rw [if_neg h]
    unfold lookupRating
    rw [List.find?_cons_of_neg _ (by simp [h])]

theorem sum_sq_lookup_le (r : List (Nat × ℚ)) (s : Finset Nat) :
    (∑ m ∈ s, ((lookupRating r m : ℝ)) ^ 2) ≤
      (r.map (fun p => ((p.2 : ℝ)) ^ 2)).sum := by
  induction r generalizing s with
  | nil => simp [lookupRating_nil]
  | cons hd tl ih =>
    obtain ⟨k, v⟩ := hd
    rw [List.map_cons, List.sum_cons]
    by_cases hk : k ∈ s
    · rw [← Finset.add_sum_erase s _ hk]
      have h1 : ((lookupRating ((k, v) :: tl) k : ℝ)) ^ 2 = ((v : ℝ)) ^ 2 := by
        rw [lookupRating_cons, if_pos rfl]
      have h2 : ∀ m ∈ s.erase k,
          ((lookupRating ((k, v) :: tl) m : ℝ)) ^ 2 = ((lookupRating tl m : ℝ)) ^ 2 := by
        intro m hm
        rw [lookupRating_cons, if_neg (Finset.ne_of_mem_erase hm).symm]
      rw [h1, Finset.sum_congr rfl h2]
      exact add_le_add_left (ih (s.erase k)) _
    · have h2 : ∀ m ∈ s,
          ((lookupRating ((k, v) :: tl) m : ℝ)) ^ 2 = ((lookupRating tl m : ℝ)) ^ 2 := by
        intro m hm
        rw [lookupRating_cons, if_neg (fun hkm => hk (by rw [hkm]; exact hm))]
      rw [Finset.sum_congr rfl h2]
      have h3 := ih s
      nlinarith [sq_nonneg ((v : ℝ))]

theorem sumSq_nonneg (r : List (Nat × ℚ)) :
    0 ≤ (r.map (fun p => ((p.2 : ℝ)) ^ 2)).sum := by
  apply List.sum_nonneg
  intro x hx
  obtain ⟨p, _, rfl⟩ := List.mem_map.1 hx
  positivity

theorem dot_le_norm_mul_norm (r1 r2 : List (Nat × ℚ)) :
    dotProductR r1 r2 ≤ vectorNorm r1 * vectorNorm r2 := by
  have hnd : (commonMovies r1 r2).Nodup := List.nodup_dedup _
  have hdot : dotProductR r1 r2 =
      ∑ m ∈ (commonMovies r1 r2).toFinset,
        (lookupRating r1 m : ℝ) * (lookupRating r2 m : ℝ) := by
    unfold dotProductR
    rw [List.sum_toFinset _ hnd]
  have hS1 := sumSq_nonneg r1
  have hS2 := sumSq_nonneg r2
  have hcs : (dotProductR r1 r2) ^ 2 ≤
      (r1.map (fun p => ((p.2 : ℝ)) ^ 2)).sum *
        (r2.map (fun p => ((p.2 : ℝ)) ^ 2)).sum := by
    rw [hdot]
    refine le_trans (Finset.sum_mul_sq_le_sq_mul_sq _ _ _) ?_
    refine mul_le_mul (sum_sq_lookup_le r1 _) (sum_sq_lookup_le r2 _)
      (Finset.sum_nonneg (fun m _ => sq_nonneg _)) hS1
  have hsq : dotProductR r1 r2 ≤
      Real.sqrt ((r1.map (fun p => ((p.2 : ℝ)) ^ 2)).sum *
        (r2.map (fun p => ((p.2 : ℝ)) ^ 2)).sum) := by
    rcases le_or_lt (dotProductR r1 r2) 0 with h | h
    · exact le_trans h (Real.sqrt_nonneg _)
    · exact (Real.le_sqrt h.le (mul_nonneg hS1 hS2)).2 hcs
  calc dotProductR r1 r2
      ≤ Real.sqrt ((r1.map (fun p => ((p.2 : ℝ)) ^ 2)).sum *
          (r2.map (fun p => ((p.2 : ℝ)) ^ 2)).sum) := hsq
    _ = vectorNorm r1 * vectorNorm r2 := Real.sqrt_mul hS1 _

theorem cosineSimilarity_le_one (r1 r2 : List (Nat × ℚ)) :
    cosineSimilarity r1 r2 ≤ 1 := by
  unfold cosineSimilarity
  by_cases h1 : (commonMovies r1 r2).length < minCommonRatings
  · rw [if_pos h1]
    norm_num
  · rw [if_neg h1]
    by_cases h2 : vectorNorm r1 = 0 ∨ vectorNorm r2 = 0
    · rw [if_pos h2]
      norm_num
    · rw [if_neg h2]
      have h := not_or.1 h2
      have hn1 : 0 < vectorNorm r1 :=
        lt_of_le_of_ne (Real.sqrt_nonneg _) (Ne.symm h.1)
      have hn2 : 0 < vectorNorm r2 :=
        lt_of_le_of_ne (Real.sqrt_nonneg _) (Ne.symm h.2)
      rw [div_le_one (mul_pos hn1 hn2)]
      exact dot_le_norm_mul_norm r1 r2

/-- C8: for every row of the matrix computed by
`CollaborativeFiltering.get_user_similarity_matrix` — given the data-model
bounds on ratings — every stored similarity score lies in (0.1, 1], and no
entry is stored for an ordered pair of users whose sets of rated movies
share fewer than 5 items.  The strict lower bound is the `> 0.1` storage
filter, the upper bound is Cauchy-Schwarz (the dot product over the common
movies is at most the product of the full-vector norms), and the
common-overlap rule is the `< min_common_ratings` early return of
`_calculate_cosine_similarity`. -/
theorem similarity_matrix_bounds (db : Db)
    (_hr : ∀ r ∈ db.ratings, 1/2 ≤ r.rating ∧ r.rating ≤ 5) :
    (∀ uid row, (uid, row) ∈ userSimilarityMatrix db →
      ∀ v s, (v, s) ∈ row → 1/10 < s ∧ s ≤ 1) ∧
    (∀ uid row, (uid, row) ∈ userSimilarityMatrix db →
      ∀ v, (commonMovies (userRatings db uid) (userRatings db v)).length < 5 →
        ∀ s, (v, s) ∉ row) := by
  have hrow : ∀ uid row, (uid, row) ∈ userSimilarityMatrix db →
      ∀ v s, (v, s) ∈ row →
        1/10 < s ∧ s = cosineSimilarity (userRatings db uid) (userRatings db v) := by
    intro uid row hm v s hvs
    obtain ⟨u, hu, hf⟩ := List.mem_filterMap.1 hm
    split at hf
    · exact absurd hf (by simp)
    · rw [Option.some_inj] at hf
      injection hf with h1 h2
      subst h1
      subst h2
      obtain ⟨vu, hvu, hg⟩ := List.mem_filterMap.1 hvs
      split at hg
      · exact absurd hg (by simp)
      · split at hg
        · exact absurd hg (by simp)
        · split at hg
          · rw [Option.some_inj] at hg
            injection hg with h3 h4
            subst h3
            subst h4
            exact ⟨by assumption, rfl⟩
          · exact absurd hg (by simp)
  constructor
  · intro uid row hm v s hvs
    obtain ⟨hgt, hsim⟩ := hrow uid row hm v s hvs
    refine ⟨hgt, ?_⟩
    rw [hsim]
    exact cosineSimilarity_le_one _ _
  · intro uid row hm v hcom s hvs
    obtain ⟨hgt, hsim⟩ := hrow uid row hm v s hvs
    rw [hsim] at hgt
    unfold cosineSimilarity at hgt
    rw [if_pos (by simpa [minCommonRatings] using hcom)] at hgt
    norm_num at hgt

/-- Witness for C8 at `dbTwin`: the rating bounds hold concretely and the
matrix-bounds theorem applies. -/
theorem similarity_matrix_bounds_witness :
    (∀ r ∈ dbTwin.ratings, 1/2 ≤ r.rating ∧ r.rating ≤ 5) ∧
    ((∀ uid row, (uid, row) ∈ userSimilarityMatrix dbTwin →
      ∀ v s, (v, s) ∈ row → 1/10 < s ∧ s ≤ 1) ∧
     (∀ uid row, (uid, row) ∈ userSimilarityMatrix dbTwin →
      ∀ v, (commonMovies (userRatings dbTwin uid) (userRatings dbTwin v)).length < 5 →
        ∀ s, (v, s) ∉ row)) := by
  have h : ∀ r ∈ dbTwin.ratings, 1/2 ≤ r.rating ∧ r.rating ≤ 5 := by
    intro r hr
    simp only [dbTwin] at hr
    fin_cases hr <;> norm_num
  exact ⟨h, similarity_matrix_bounds dbTwin h⟩

end MovieRec

namespace MovieRec

/-- Witness for C1 at the claim's own example: the merged entry for movie
42 carries the maximum score 0.9 but the first-seen (collaborative)
reason. -/
theorem merge_keeps_max_score_and_first_reason_witness :
    ∃ e, (mergeRecs [entR1, entR2]).filter (fun x => x.movie.id == 42) = [e] ∧
      e.score = 0.9 ∧ e.reason = Reason.collaborative 0.7 := by
  obtain ⟨e, h1, h2, h3⟩ := merge_keeps_max_score_and_first_reason
    [entR1, entR2] 42 entR1 [entR2] (by simp [entR1, entR2])
  refine ⟨e, h1, ?_, by simpa [entR1] using h3⟩
  have hmax : (([entR1, entR2]).map (fun x => x.score)).max? = some (0.9 : ℝ) := by
    have : max (0.7 : ℝ) 0.9 = 0.9 := by norm_num
    simp [entR1, entR2, List.max?, this]
  rw [hmax] at h2
  exact Option.some_injective _ h2


/-! ### C2: Scenario A against the full-vector-norm cosine similarity -/

theorem hrX : userRatings dbScenA 1 = [(1,5),(2,9/2),(3,4),(4,5),(5,7/2)] := rfl

theorem hrY : userRatings dbScenA 2 = [(1,5),(2,9/2),(3,4),(4,5),(5,7/2),(6,5)] := rfl

theorem hcmXY : commonMovies (userRatings dbScenA 1) (userRatings dbScenA 2) = [1,2,3,4,5] := rfl

theorem hcmYX : commonMovies (userRatings dbScenA 2) (userRatings dbScenA 1) = [1,2,3,4,5] := rfl

theorem hdotXY : dotProductR (userRatings dbScenA 1) (userRatings dbScenA 2) = 197/2 := by
  norm_num [dotProductR, hcmXY,
    show lookupRating (userRatings dbScenA 1) 1 = (5:ℚ) from rfl,
    show lookupRating (userRatings dbScenA 1) 2 = (9/2:ℚ) from rfl,
    show lookupRating (userRatings dbScenA 1) 3 = (4:ℚ) from rfl,
    show lookupRating (userRatings dbScenA 1) 4 = (5:ℚ) from rfl,
    show lookupRating (userRatings dbScenA 1) 5 = (7/2:ℚ) from rfl,
    show lookupRating (userRatings dbScenA 2) 1 = (5:ℚ) from rfl,
    show lookupRating (userRatings dbScenA 2) 2 = (9/2:ℚ) from rfl,
    show lookupRating (userRatings dbScenA 2) 3 = (4:ℚ) from rfl,
    show lookupRating (userRatings dbScenA 2) 4 = (5:ℚ) from rfl,
    show lookupRating (userRatings dbScenA 2) 5 = (7/2:ℚ) from rfl]

theorem hdotYX : dotProductR (userRatings dbScenA 2) (userRatings dbScenA 1) = 197/2 := by
  norm_num [dotProductR, hcmYX,
    show lookupRating (userRatings dbScenA 1) 1 = (5:ℚ) from rfl,
    show lookupRating (userRatings dbScenA 1) 2 = (9/2:ℚ) from rfl,
    show lookupRating (userRatings dbScenA 1) 3 = (4:ℚ) from rfl,
    show lookupRating (userRatings dbScenA 1) 4 = (5:ℚ) from rfl,
    show lookupRating (userRatings dbScenA 1) 5 = (7/2:ℚ) from rfl,
    show lookupRating (userRatings dbScenA 2) 1 = (5:ℚ) from rfl,
    show lookupRating (userRatings dbScenA 2) 2 = (9/2:ℚ) from rfl,
    show lookupRating (userRatings dbScenA 2) 3 = (4:ℚ) from rfl,
    show lookupRating (userRatings dbScenA 2) 4 = (5:ℚ) from rfl,
    show lookupRating (userRatings dbScenA 2) 5 = (7/2:ℚ) from rfl]

theorem hsqX : ((userRatings dbScenA 1).map (fun p => ((p.2:ℝ))^2)).sum = 197/2 := by
  rw [hrX]
  norm_num

theorem hsqY : ((userRatings dbScenA 2).map (fun p => ((p.2:ℝ))^2)).sum = 247/2 := by
  rw [hrY]
  norm_num

theorem hnormX : vectorNorm (userRatings dbScenA 1) = Real.sqrt (197/2) := by
  unfold vectorNorm
  rw [hsqX]

theorem hnormY : vectorNorm (userRatings dbScenA 2) = Real.sqrt (247/2) := by
  unfold vectorNorm
  rw [hsqY]

theorem hsimXY : cosineSimilarity (userRatings dbScenA 1) (userRatings dbScenA 2) =
    (197/2) / (Real.sqrt (197/2) * Real.sqrt (247/2)) := by
  unfold cosineSimilarity
  rw [if_neg (by rw [hcmXY]; norm_num [minCommonRatings])]
  rw [if_neg (by
    rw [hnormX, hnormY]
    push_neg
    constructor <;> (rw [Ne, Real.sqrt_eq_zero']; norm_num))]
  rw [hdotXY, hnormX, hnormY]

theorem hsimXY_pos : 0 < cosineSimilarity (userRatings dbScenA 1) (userRatings dbScenA 2) := by
  rw [hsimXY]
  positivity

theorem hsimXY_sq : (cosineSimilarity (userRatings dbScenA 1) (userRatings dbScenA 2)) ^ 2
    = 197/247 := by
  rw [hsimXY]
  rw [div_pow, mul_pow, Real.sq_sqrt (by norm_num : (0:ℝ) ≤ 197/2),
    Real.sq_sqrt (by norm_num : (0:ℝ) ≤ 247/2)]
  norm_num

theorem hsimXY_lt_one :
    cosineSimilarity (userRatings dbScenA 1) (userRatings dbScenA 2) < 1 := by
  rw [hsimXY]
  rw [div_lt_one (by positivity), ← Real.sqrt_mul (by norm_num : (0:ℝ) ≤ 197/2)]
  calc (197:ℝ)/2 = Real.sqrt ((197/2)^2) := (Real.sqrt_sq (by norm_num)).symm
    _ < Real.sqrt (197/2 * (247/2)) := Real.sqrt_lt_sqrt (by positivity) (by norm_num)

theorem hsimXY_gt : (1:ℝ)/10 <
    cosineSimilarity (userRatings dbScenA 1) (userRatings dbScenA 2) := by
  rw [hsimXY]
  rw [lt_div_iff₀ (by positivity), ← Real.sqrt_mul (by norm_num : (0:ℝ) ≤ 197/2)]
  have h12 : ((197:ℝ)/2 * (247/2)) = 48659/4 := by norm_num
  rw [h12]
  have hs : Real.sqrt (48659/4) < 111 := by
    have h1 := Real.sqrt_lt_sqrt (by norm_num : (0:ℝ) ≤ 48659/4)
      (by norm_num : (48659:ℝ)/4 < 111^2)
    rwa [Real.sqrt_sq (by norm_num : (0:ℝ) ≤ 111)] at h1
  linarith

theorem hsimYX : cosineSimilarity (userRatings dbScenA 2) (userRatings dbScenA 1) =
    cosineSimilarity (userRatings dbScenA 1) (userRatings dbScenA 2) := by
  unfold cosineSimilarity
  rw [if_neg (by rw [hcmYX]; norm_num [minCommonRatings])]
  rw [if_neg (by
    rw [hnormX, hnormY]
    push_neg
    constructor <;> (rw [Ne, Real.sqrt_eq_zero']; norm_num))]
  rw [if_neg (by rw [hcmXY]; norm_num [minCommonRatings])]
  rw [if_neg (by
    rw [hnormX, hnormY]
    push_neg
    constructor <;> (rw [Ne, Real.sqrt_eq_zero']; norm_num))]
  rw [hdotYX, hdotXY, mul_comm]

theorem hsimYX_gt : (1:ℝ)/10 <
    cosineSimilarity (userRatings dbScenA 2) (userRatings dbScenA 1) := by
  rw [hsimYX]
  exact hsimXY_gt

theorem husersA : usersWithRatings dbScenA = [⟨1, []⟩, ⟨2, []⟩] := rfl

theorem hmatA : userSimilarityMatrix dbScenA =
    [(1, [(2, cosineSimilarity (userRatings dbScenA 1) (userRatings dbScenA 2))]),
     (2, [(1, cosineSimilarity (userRatings dbScenA 2) (userRatings dbScenA 1))])] := by
  have h5 : (userRatings dbScenA 1).length = 5 := by rw [hrX]; rfl
  have h6 : (userRatings dbScenA 2).length = 6 := by rw [hrY]; rfl
  simp only [userSimilarityMatrix, husersA, List.filterMap_cons, List.filterMap_nil,
    h5, h6, minCommonRatings, hsimXY_gt, hsimYX_gt]
  norm_num

theorem habsA : |cosineSimilarity (userRatings dbScenA 1) (userRatings dbScenA 2)| =
    cosineSimilarity (userRatings dbScenA 1) (userRatings dbScenA 2) :=
  abs_of_pos hsimXY_pos

theorem hcollabA : ∃ e ∈ collaborativeRecommendations dbScenA 1 10,
    e.movie.id = 6 ∧ e.score = 5 := by
  unfold collaborativeRecommendations
  rw [hmatA]
  rw [show (List.find? (fun p => p.1 == 1)
      [(1, [(2, cosineSimilarity (userRatings dbScenA 1) (userRatings dbScenA 2))]),
       (2, [(1, cosineSimilarity (userRatings dbScenA 2) (userRatings dbScenA 1))])]) =
      some (1, [(2, cosineSimilarity (userRatings dbScenA 1) (userRatings dbScenA 2))])
    from rfl]
  dsimp only
  have hacc : accumNeighborScores dbScenA (ratedMovieIds dbScenA 1)
      [(2, cosineSimilarity (userRatings dbScenA 1) (userRatings dbScenA 2))] =
      [(6, ((5:ℚ):ℝ) * cosineSimilarity (userRatings dbScenA 1) (userRatings dbScenA 2),
        |cosineSimilarity (userRatings dbScenA 1) (userRatings dbScenA 2)|)] := by
    rfl
  rw [hacc]
  simp only [List.filterMap_cons, List.filterMap_nil]
  rw [if_pos (abs_pos.2 (ne_of_gt hsimXY_pos))]
  rw [show findMovie dbScenA 6 = some ⟨6, [], 0, 0, 0⟩ from rfl]
  dsimp only
  refine ⟨_, List.mem_cons_self _ _, rfl, ?_⟩
  show (((5:ℚ):ℝ) * cosineSimilarity (userRatings dbScenA 1) (userRatings dbScenA 2)) /
      |cosineSimilarity (userRatings dbScenA 1) (userRatings dbScenA 2)| = 5
  rw [habsA]
  rw [mul_div_assoc, div_self (ne_of_gt hsimXY_pos)]
  norm_num

/-- Counterexample to C2: in Scenario A exactly as claimed (user 2 has
also rated movie 6 when the similarity is computed), the similarity is not
1.0 — the norms are taken over each user's full rating vector, and user
2's vector includes the sixth rating. -/
theorem scenario_a_similarity_ne_one :
    cosineSimilarity (userRatings dbScenA 1) (userRatings dbScenA 2) ≠ 1 :=
  ne_of_lt hsimXY_lt_one

/-- C2 as amended: in Scenario A the computed similarity(X,Y) is
√(197/247) ≈ 0.893 (its square is 197/247 and it is positive) rather than
1.0, because the cosine denominator uses full-vector norms and Y's vector
includes the extra movie-6 rating; `getRecommendations(X, 10)` still
includes movie 6 in the collaborative contribution with predicted score
exactly 5.0, since the weighted prediction (rating * similarity) /
|similarity| cancels the similarity. -/
theorem scenario_a_amended :
    (cosineSimilarity (userRatings dbScenA 1) (userRatings dbScenA 2)) ^ 2 = 197/247 ∧
    0 < cosineSimilarity (userRatings dbScenA 1) (userRatings dbScenA 2) ∧
    ∃ e ∈ collaborativeRecommendations dbScenA 1 10, e.movie.id = 6 ∧ e.score = 5 :=
  ⟨hsimXY_sq, hsimXY_pos, hcollabA⟩

/-! ### C7: the size bound of the hybrid output -/

/-- C7 as amended: the output of
`HybridRecommendationEngine.get_recommendations` never exceeds `limit`
entries.  (The exact-fill half of the claim is refuted by
`hybrid_fill_below_limit_cex`: padding is computed before deduplication,
so cross-strategy duplicates can leave the final list short of `limit`
even when enough eligible movies exist.) -/
theorem hybrid_length_le (cfg : Config) (db : Db) (u : User) (limit : Nat) :
    (hybridGetRecommendations cfg db u limit).length ≤ limit := by
  unfold hybridGetRecommendations
  rw [List.length_take]
  exact min_le_left _ _

/-- Counterexample to C7's exact-fill half: in `dbSmall`, user 1 has two
eligible movies (101 and 102) and asks for limit 2, but the content
strategy and the popularity padding both contribute movie 101, so after
deduplication the output has a single entry. -/
theorem hybrid_fill_below_limit_cex :
    2 ≤ (eligibleMovies dbSmall userA.id).length ∧
    (hybridGetRecommendations cfgStd dbSmall userA 2).length < 2 := by
  constructor
  · have h : (eligibleMovies dbSmall userA.id).length = 2 := by with_unfolding_all rfl
    omega
  · have h : (hybridGetRecommendations cfgStd dbSmall userA 2).length = 1 := by
      with_unfolding_all rfl
    omega

/-! ### C3: exclusion of rated and favorited movies -/

theorem mergeStep_movie (acc : List (Nat × Entry ℝ)) (e : Entry ℝ) :
    ∀ p ∈ mergeStep acc e, p ∈ acc ∨ p.2.movie = e.movie := by
  unfold mergeStep
  exact upsert_forall _ _ _ _ _ (fun p hp => Or.inl hp) (Or.inr rfl)
    (fun q _ _ => Or.inr rfl)

theorem foldl_mergeStep_movie (l : List (Entry ℝ)) :
    ∀ (acc : List (Nat × Entry ℝ)), ∀ p ∈ l.foldl mergeStep acc,
      p ∈ acc ∨ ∃ x ∈ l, x.movie = p.2.movie := by
  induction l with
  | nil => intro acc p hp; exact Or.inl hp
  | cons e l ih =>
    intro acc p hp
    rw [List.foldl_cons] at hp
    rcases ih (mergeStep acc e) p hp with h | h
    · rcases mergeStep_movie acc e p h with h2 | h2
      · exact Or.inl h2
      · exact Or.inr ⟨e, List.mem_cons_self _ _, h2.symm⟩
    · obtain ⟨x, hx, hxe⟩ := h
      exact Or.inr ⟨x, List.mem_cons_of_mem _ hx, hxe⟩

theorem mergeRecs_movie (l : List (Entry ℝ)) (e : Entry ℝ) (he : e ∈ mergeRecs l) :
    ∃ x ∈ l, x.movie = e.movie := by
  unfold mergeRecs at he
  obtain ⟨p, hp, rfl⟩ := List.mem_map.1 he
  rcases foldl_mergeStep_movie l [] p hp with h | h
  · simp at h
  · exact h

theorem accumNeighborScores_key (db : Db) (rated : List Nat) (row : List (Nat × ℝ)) :
    ∀ ms ∈ accumNeighborScores db rated row, ms.1 ∉ rated := by
  unfold accumNeighborScores
  refine foldl_preserves_mem
    (fun acc : List (Nat × ℝ × ℝ) => ∀ ms ∈ acc, ms.1 ∉ rated) _ row [] ?_ (by simp)
  intro acc p _ hacc
  refine foldl_preserves_mem
    (fun acc : List (Nat × ℝ × ℝ) => ∀ ms ∈ acc, ms.1 ∉ rated) _ _ acc ?_ hacc
  intro acc' r hr hacc'
  have hnot : r.movie_id ∉ rated := by
    have h2 := (List.mem_filter.1 hr).2
    simp only [Bool.and_eq_true, Bool.not_eq_true'] at h2
    simpa using h2.2
  exact upsert_forall _ _ _ _ _ hacc' hnot (fun q _ _ => hnot)

theorem collaborativeRecommendations_unrated (db : Db) (uid limit : Nat)
    (e : Entry ℝ) (he : e ∈ collaborativeRecommendations db uid limit) :
    e.movie.id ∉ ratedMovieIds db uid := by
  unfold collaborativeRecommendations at he
  cases hfind : (userSimilarityMatrix db).find? (fun p => p.1 == uid) with
  | none =>
    rw [hfind] at he
    simp at he
  | some pr =>
    rw [hfind] at he
    dsimp only at he
    have he2 := List.mem_of_mem_take he
    rw [mem_sortTop] at he2
    obtain ⟨ms, hms, hf⟩ := List.mem_filterMap.1 he2
    split at hf
    · cases hmov : findMovie db ms.1 with
      | none =>
        rw [hmov] at hf
        simp at hf
      | some m =>
        rw [hmov] at hf
        rw [Option.some_inj] at hf
        have hid : m.id = ms.1 := by
          have := List.find?_some hmov
          simpa using this
        rw [← hf]
        show m.id ∉ ratedMovieIds db uid
        rw [hid]
        exact accumNeighborScores_key db (ratedMovieIds db uid) pr.2 ms hms
    · simp at hf

theorem contentRecommendations_not_excluded (db : Db) (u : User) (limit : Nat)
    (e : Entry ℚ) (he : e ∈ contentRecommendations db u limit) :
    e.movie.id ∉ excludedMovieIds db u.id := by
  unfold contentRecommendations at he
  split at he
  · simp at he
  · have h1 := List.mem_of_mem_take he
    rw [mem_sortTop] at h1
    obtain ⟨m, hm, hf⟩ := List.mem_filterMap.1 h1
    have hmc : m.id ∉ excludedMovieIds db u.id := by
      unfold contentCandidates at hm
      have h2 := List.mem_of_mem_take hm
      rw [mem_sortTop] at h2
      have h3 := (List.mem_filter.1 h2).2
      simp only [Bool.and_eq_true, Bool.not_eq_true'] at h3
      simpa using h3.2
    split at hf
    · rw [Option.some_inj] at hf
      rw [← hf]
      exact hmc
    · simp at hf

theorem popularityRecommendations_not_excluded (cfg : Config) (db : Db)
    (uid limit : Nat) (e : Entry ℚ)
    (he : e ∈ popularityRecommendations cfg db uid limit) :
    e.movie.id ∉ excludedMovieIds db uid := by
  unfold popularityRecommendations at he
  obtain ⟨m, hm, rfl⟩ := List.mem_map.1 he
  have h1 := List.mem_of_mem_take hm
  rw [mem_sortTop] at h1
  have h2 := (List.mem_filter.1 h1).2
  simp only [Bool.and_eq_true, Bool.not_eq_true'] at h2
  simpa using h2.2

/-- C3 as amended: no movie in the output of
`HybridRecommendationEngine.get_recommendations` has been rated by the
user.  (The favorites half of the claim is refuted by
`hybrid_includes_favorite_cex`: the collaborative filter excludes only
rated movies, so a favorited-but-unrated movie can reach the output
through the collaborative contribution, while the content and popularity
contributions do exclude favorites.) -/
theorem hybrid_excludes_rated (cfg : Config) (db : Db) (u : User) (limit : Nat)
    (e : Entry ℝ) (he : e ∈ hybridGetRecommendations cfg db u limit)
    (r : RatingRow) (hrdb : r ∈ db.ratings) (hru : r.user_id = u.id) :
    r.movie_id ≠ e.movie.id := by
  intro hcontra
  have hmem : e.movie.id ∈ ratedMovieIds db u.id := by
    rw [← hcontra]
    exact List.mem_map_of_mem _ (List.mem_filter.2 ⟨hrdb, by simp [hru]⟩)
  have hmem2 : e.movie.id ∈ excludedMovieIds db u.id :=
    List.mem_append.2 (Or.inr hmem)
  unfold hybridGetRecommendations at he
  have he1 := List.mem_of_mem_take he
  rw [mem_sortTop] at he1
  obtain ⟨x, hx, hxe⟩ := mergeRecs_movie _ _ he1
  unfold hybridAll at hx
  rw [List.mem_append] at hx
  rcases hx with hx | hx
  · rw [List.mem_append] at hx
    rcases hx with hx | hx
    · unfold hybridCollabPart at hx
      split at hx
      · obtain ⟨e0, he0, rfl⟩ := List.mem_map.1 hx
        have hun := collaborativeRecommendations_unrated db u.id (limit/2) e0 he0
        rw [hxe] at hun
        exact hun hmem
      · simp at hx
    · unfold hybridContentPart at hx
      obtain ⟨e0, he0, rfl⟩ := List.mem_map.1 hx
      have hun := contentRecommendations_not_excluded db u (limit/2) e0 he0
      rw [hxe] at hun
      exact hun hmem2
  · split at hx
    · obtain ⟨e0, he0, rfl⟩ := List.mem_map.1 hx
      have hun := popularityRecommendations_not_excluded cfg db u.id _ e0 he0
      unfold Entry.toReal at hxe
      rw [hxe] at hun
      exact hun hmem2
    · simp at hx

/-- Witness for the amended C3: user 2 of `dbSmall` has rated movie 101;
the hybrid output for user 2 holds the popularity entry for movie 102, and
the theorem yields 101 ≠ 102. -/
theorem hybrid_excludes_rated_witness :
    (⟨mov102, ((14/125 : ℚ) : ℝ), Reason.popularity⟩ : Entry ℝ) ∈
      hybridGetRecommendations cfgStd dbSmall userB 2 ∧
    (⟨2, 101, 5⟩ : RatingRow) ∈ dbSmall.ratings ∧
    (101 : Nat) ≠ (⟨mov102, ((14/125 : ℚ) : ℝ), Reason.popularity⟩ : Entry ℝ).movie.id := by
  have hrun : hybridGetRecommendations cfgStd dbSmall userB 2 =
      [⟨mov102, ((14/125 : ℚ) : ℝ), Reason.popularity⟩] := by
    with_unfolding_all rfl
  have hmem : (⟨mov102, ((14/125 : ℚ) : ℝ), Reason.popularity⟩ : Entry ℝ) ∈
      hybridGetRecommendations cfgStd dbSmall userB 2 := by
    rw [hrun]
    exact List.mem_cons_self _ _
  have hrat : (⟨2, 101, 5⟩ : RatingRow) ∈ dbSmall.ratings := by
    simp [dbSmall]
  exact ⟨hmem, hrat,
    hybrid_excludes_rated cfgStd dbSmall userB 2 _ hmem ⟨2, 101, 5⟩ hrat rfl⟩

theorem hrFX : userRatings dbFav 1 = [(1,2),(2,2),(3,2),(4,2),(5,2)] := rfl

theorem hrFY : userRatings dbFav 2 = [(1,2),(2,2),(3,2),(4,2),(5,2),(6,5)] := rfl

theorem hcmF : commonMovies (userRatings dbFav 1) (userRatings dbFav 2) = [1,2,3,4,5] := rfl

theorem hcmF' : commonMovies (userRatings dbFav 2) (userRatings dbFav 1) = [1,2,3,4,5] := rfl

theorem hdotF : dotProductR (userRatings dbFav 1) (userRatings dbFav 2) = 20 := by
  norm_num [dotProductR, hcmF,
    show lookupRating (userRatings dbFav 1) 1 = (2:ℚ) from rfl,
    show lookupRating (userRatings dbFav 1) 2 = (2:ℚ) from rfl,
    show lookupRating (userRatings dbFav 1) 3 = (2:ℚ) from rfl,
    show lookupRating (userRatings dbFav 1) 4 = (2:ℚ) from rfl,
    show lookupRating (userRatings dbFav 1) 5 = (2:ℚ) from rfl,
    show lookupRating (userRatings dbFav 2) 1 = (2:ℚ) from rfl,
    show lookupRating (userRatings dbFav 2) 2 = (2:ℚ) from rfl,
    show lookupRating (userRatings dbFav 2) 3 = (2:ℚ) from rfl,
    show lookupRating (userRatings dbFav 2) 4 = (2:ℚ) from rfl,
    show lookupRating (userRatings dbFav 2) 5 = (2:ℚ) from rfl]

theorem hdotF' : dotProductR (userRatings dbFav 2) (userRatings dbFav 1) = 20 := by
  norm_num [dotProductR, hcmF',
    show lookupRating (userRatings dbFav 1) 1 = (2:ℚ) from rfl,
    show lookupRating (userRatings dbFav 1) 2 = (2:ℚ) from rfl,
    show lookupRating (userRatings dbFav 1) 3 = (2:ℚ) from rfl,
    show lookupRating (userRatings dbFav 1) 4 = (2:ℚ) from rfl,
    show lookupRating (userRatings dbFav 1) 5 = (2:ℚ) from rfl,
    show lookupRating (userRatings dbFav 2) 1 = (2:ℚ) from rfl,
    show lookupRating (userRatings dbFav 2) 2 = (2:ℚ) from rfl,
    show lookupRating (userRatings dbFav 2) 3 = (2:ℚ) from rfl,
    show lookupRating (userRatings dbFav 2) 4 = (2:ℚ) from rfl,
    show lookupRating (userRatings dbFav 2) 5 = (2:ℚ) from rfl]

theorem hnormFX : vectorNorm (userRatings dbFav 1) = Real.sqrt 20 := by
  unfold vectorNorm
  rw [show ((userRatings dbFav 1).map (fun p => ((p.2:ℝ))^2)).sum = 20 by
    rw [hrFX]; norm_num]

theorem hnormFY : vectorNorm (userRatings dbFav 2) = Real.sqrt 45 := by
  unfold vectorNorm
  rw [show ((userRatings dbFav 2).map (fun p => ((p.2:ℝ))^2)).sum = 45 by
    rw [hrFY]; norm_num]

theorem hsqrt2045 : Real.sqrt 20 * Real.sqrt 45 = 30 := by
  rw [← Real.sqrt_mul (by norm_num : (0:ℝ) ≤ 20)]
  rw [show (20:ℝ) * 45 = 30^2 by norm_num]
  exact Real.sqrt_sq (by norm_num)

theorem hsimF : cosineSimilarity (userRatings dbFav 1) (userRatings dbFav 2) = 2/3 := by
  unfold cosineSimilarity
  rw [if_neg (by rw [hcmF]; norm_num [minCommonRatings])]
  rw [if_neg (by
    rw [hnormFX, hnormFY]
    push_neg
    constructor <;> (rw [Ne, Real.sqrt_eq_zero']; norm_num))]
  rw [hdotF, hnormFX, hnormFY, hsqrt2045]
  norm_num

theorem hsimF' : cosineSimilarity (userRatings dbFav 2) (userRatings dbFav 1) = 2/3 := by
  unfold cosineSimilarity
  rw [if_neg (by rw [hcmF']; norm_num [minCommonRatings])]
  rw [if_neg (by
    rw [hnormFX, hnormFY]
    push_neg
    constructor <;> (rw [Ne, Real.sqrt_eq_zero']; norm_num))]
  rw [hdotF', hnormFX, hnormFY, mul_comm, hsqrt2045]
  norm_num

theorem hsimF_gt : (1:ℝ)/10 < cosineSimilarity (userRatings dbFav 1) (userRatings dbFav 2) := by
  rw [hsimF]
  norm_num

theorem hsimF_gt' : (1:ℝ)/10 < cosineSimilarity (userRatings dbFav 2) (userRatings dbFav 1) := by
  rw [hsimF']
  norm_num

theorem hsimF_pos : 0 < cosineSimilarity (userRatings dbFav 1) (userRatings dbFav 2) := by
  rw [hsimF]
  norm_num

theorem hmatF : userSimilarityMatrix dbFav =
    [(1, [(2, cosineSimilarity (userRatings dbFav 1) (userRatings dbFav 2))]),
     (2, [(1, cosineSimilarity (userRatings dbFav 2) (userRatings dbFav 1))])] := by
  have h5 : (userRatings dbFav 1).length = 5 := by rw [hrFX]; rfl
  have h6 : (userRatings dbFav 2).length = 6 := by rw [hrFY]; rfl
  simp only [userSimilarityMatrix,
    show usersWithRatings dbFav = [⟨1, []⟩, ⟨2, []⟩] from rfl,
    List.filterMap_cons, List.filterMap_nil, h5, h6, minCommonRatings,
    hsimF_gt, hsimF_gt']
  norm_num

theorem hcollabF : ∃ e, collaborativeRecommendations dbFav 1 1 = [e] ∧ e.movie.id = 6 := by
  unfold collaborativeRecommendations
  rw [hmatF]
  rw [show (List.find? (fun p => p.1 == 1)
      [(1, [(2, cosineSimilarity (userRatings dbFav 1) (userRatings dbFav 2))]),
       (2, [(1, cosineSimilarity (userRatings dbFav 2) (userRatings dbFav 1))])]) =
      some (1, [(2, cosineSimilarity (userRatings dbFav 1) (userRatings dbFav 2))])
    from rfl]
  dsimp only
  rw [show accumNeighborScores dbFav (ratedMovieIds dbFav 1)
      [(2, cosineSimilarity (userRatings dbFav 1) (userRatings dbFav 2))] =
      [(6, ((5:ℚ):ℝ) * cosineSimilarity (userRatings dbFav 1) (userRatings dbFav 2),
        |cosineSimilarity (userRatings dbFav 1) (userRatings dbFav 2)|)] from rfl]
  simp only [List.filterMap_cons, List.filterMap_nil]
  rw [if_pos (abs_pos.2 (ne_of_gt hsimF_pos))]
  rw [show findMovie dbFav 6 = some ⟨6, [], 0, 0, 0⟩ from rfl]
  exact ⟨_, rfl, rfl⟩

/-- Counterexample to C3: in `dbFav`, movie 6 is a favorite of user 1 and
is unrated by user 1, yet the hybrid output for user 1 contains movie 6 —
it arrives through the collaborative contribution, which only excludes
movies the user has rated, never favorites. -/
theorem hybrid_includes_favorite_cex :
    (⟨1, 6⟩ : FavoriteRow) ∈ dbFav.favorites ∧
    ∃ e ∈ hybridGetRecommendations cfgStd dbFav ⟨1, []⟩ 2, e.movie.id = 6 := by
  refine ⟨by simp [dbFav], ?_⟩
  obtain ⟨ec, hec, hid⟩ := hcollabF
  have hcp : hybridCollabPart cfgStd dbFav ⟨1, []⟩ 2 =
      [⟨ec.movie, ec.score * ((1/2 : ℚ) : ℝ), ec.reason⟩] := by
    unfold hybridCollabPart
    rw [if_pos (by with_unfolding_all rfl)]
    show (collaborativeRecommendations dbFav 1 (2/2)).map _ = _
    rw [show (2/2 : Nat) = 1 from rfl, hec]
    rfl
  have hct : hybridContentPart cfgStd dbFav ⟨1, []⟩ 2 = [] := by
    unfold hybridContentPart
    rw [show contentRecommendations dbFav ⟨1, []⟩ (2/2) = [] by
      with_unfolding_all rfl]
    rfl
  have hall : hybridAll cfgStd dbFav ⟨1, []⟩ 2 =
      [⟨ec.movie, ec.score * ((1/2 : ℚ) : ℝ), ec.reason⟩] := by
    unfold hybridAll
    rw [hcp, hct]
    simp only [List.append_nil, List.length_singleton]
    rw [if_pos (by norm_num)]
    rw [show popularityRecommendations cfgStd dbFav (⟨1, []⟩ : User).id (2 - 1) = [] by
      with_unfolding_all rfl]
    simp
  unfold hybridGetRecommendations
  rw [hall]
  rw [show ∀ (x : Entry ℝ), mergeRecs [x] = [x] from fun x => rfl]
  rw [show ∀ (x : Entry ℝ), sortTop scoreGeR [x] = [x] from fun x => rfl]
  exact ⟨_, List.mem_cons_self _ _, hid⟩

end MovieRec
